import Mathlib

/-!
# Verification of the bb_mini_scales repository

Shallow embedding of the M5Stack MiniScale driver (`m5stack_mini_scale.py`)
and the CSV weight logger (`mini_scale_logger.py`), with theorems settling
the specification claims about them.

Conventions of the embedding:
* Python arbitrary-precision integers are `ℤ`; bit masks `x & 0x7F` / `x & 0xFF`
  on them are embedded as `x % 128` / `x % 256` (Python's `&` on arbitrary
  ints coincides with the non-negative remainder for these masks, and Lean's
  `Int.emod` is likewise non-negative for a positive modulus).
* Python floats appearing only as exact small decimals are embedded as `ℚ`;
  the float NaN sentinel is embedded as the `none` of an `Option ℚ` field.
* A fallible bus read is an `Option` value: `some v` for a successful read
  returning `v`, `none` for a raised exception.
-/

set_option autoImplicit false

namespace MiniScales

/-! ## Driver: `m5stack_mini_scale.py` -/

/-- `MiniScale.get_button_pressed` (src/m5stack_mini_scale.py:130-133):
reads one byte `v` from register 0x20 and returns `v == 0`
(the register uses inverted logic: 0 means pressed). -/
def get_button_pressed (v : ℕ) : Bool :=
  v == 0

/-- `MiniScale.compute_gap_from_points` (src/m5stack_mini_scale.py:112-120):
`GAP = (adc_0g - adc_w) / weight_g`, raising `ValueError` when
`weight_g == 0`.  The raised error is embedded as `none`. -/
def compute_gap_from_points (adc_0g adc_w : ℤ) (weight_g : ℚ) : Option ℚ :=
  if weight_g = 0 then none
  else some (((adc_0g : ℚ) - (adc_w : ℚ)) / weight_g)

/-- `MiniScale.set_filters` (src/m5stack_mini_scale.py:135-152):
reads the current 3-byte filter block `[c0, c1, c2]` from register 0x80,
overwrites only the supplied fields (each masked with `& 0xFF`, embedded as
`% 256`), and returns the full 3-byte payload written back. -/
def set_filters (c0 c1 c2 : ℤ)
    (lp_enabled avg_level ema_alpha : Option ℤ) : List ℤ :=
  let n0 := match lp_enabled with
    | some x => x % 256
    | none => c0
  let n1 := match avg_level with
    | some x => x % 256
    | none => c1
  let n2 := match ema_alpha with
    | some x => x % 256
    | none => c2
  [n0, n1, n2]

/-- Effect of `MiniScale.set_i2c_address`: the byte payload written to
register 0xFF, the address the client object rebinds itself to
(`self.addr`), and the returned value. -/
structure AddrEffect where
  payload : List ℤ
  boundAddr : ℤ
  ret : ℤ
  deriving Repr, DecidableEq

/-- `MiniScale.set_i2c_address` (src/m5stack_mini_scale.py:169-172):
writes `[new_addr & 0x7F]` to register 0xFF, sets `self.addr` to
`new_addr & 0x7F`, and returns `self.addr`.  The 7-bit mask on a Python
int is embedded as `% 128`. -/
def set_i2c_address (new_addr : ℤ) : AddrEffect :=
  { payload := [new_addr % 128]
    boundAddr := new_addr % 128
    ret := new_addr % 128 }

/-! ## Theorems for the driver claims -/

/-- **C6.** For every byte `v` read from the button register,
`get_button_pressed` returns true exactly when `v == 0`: true for register
byte 0, false for 1 and for every other nonzero byte. -/
theorem C6_button_inverted_logic :
    (∀ v : ℕ, get_button_pressed v = true ↔ v = 0) ∧
    get_button_pressed 0 = true ∧
    get_button_pressed 1 = false ∧
    (∀ v : ℕ, v ≠ 0 → get_button_pressed v = false) := by
  refine ⟨fun v => ?_, rfl, rfl, fun v hv => ?_⟩
  · simp [get_button_pressed]
  · simp [get_button_pressed, hv]

/-- Closed instance of `C6_button_inverted_logic`, discharging its
conditional part at the concrete byte 7. -/
theorem C6_button_inverted_logic_witness :
    get_button_pressed 7 = false :=
  C6_button_inverted_logic.2.2.2 7 (by decide)

/-- **C3.** `compute_gap_from_points` returns
`(adc_0g - adc_w) / weight_g` for every nonzero `weight_g`, returns no
result exactly when `weight_g = 0`, and in particular
`compute_gap_from_points 1000 800 200 = some 1`. -/
theorem C3_compute_gap :
    ∀ (a0 aw : ℤ) (w : ℚ),
      (w ≠ 0 →
        compute_gap_from_points a0 aw w = some (((a0 : ℚ) - (aw : ℚ)) / w)) ∧
      (compute_gap_from_points a0 aw w = none ↔ w = 0) := by
  intro a0 aw w
  constructor
  · intro hw
    simp [compute_gap_from_points, hw]
  · constructor
    · intro h
      by_contra hw
      simp [compute_gap_from_points, hw] at h
    · intro hw
      simp [compute_gap_from_points, hw]

/-- Closed instance of `C3_compute_gap`: `compute_gap_from_points 1000 800 200`
evaluates to `some 1`, and at zero known weight the helper produces no
result. -/
theorem C3_compute_gap_witness :
    compute_gap_from_points 1000 800 200 = some 1 ∧
    compute_gap_from_points 1000 800 0 = none := by
  constructor
  · have h := (C3_compute_gap 1000 800 200).1 (by norm_num)
    rw [h]
    norm_num
  · exact (C3_compute_gap 1000 800 0).2.mpr rfl

/-- **C5.** `set_filters` writes back a full 3-byte block in which only the
supplied fields are changed: every unspecified field equals its previously
read value, and every specified field equals the supplied value masked to a
byte. -/
theorem C5_set_filters_partial_update :
    ∀ (c0 c1 c2 : ℤ) (lp avg ema : Option ℤ),
      (set_filters c0 c1 c2 lp avg ema).length = 3 ∧
      (lp = none → (set_filters c0 c1 c2 lp avg ema).getD 0 0 = c0) ∧
      (avg = none → (set_filters c0 c1 c2 lp avg ema).getD 1 0 = c1) ∧
      (ema = none → (set_filters c0 c1 c2 lp avg ema).getD 2 0 = c2) ∧
      (∀ x, lp = some x → (set_filters c0 c1 c2 lp avg ema).getD 0 0 = x % 256) ∧
      (∀ x, avg = some x → (set_filters c0 c1 c2 lp avg ema).getD 1 0 = x % 256) ∧
      (∀ x, ema = some x → (set_filters c0 c1 c2 lp avg ema).getD 2 0 = x % 256) := by
  intro c0 c1 c2 lp avg ema
  refine ⟨rfl, ?_, ?_, ?_, ?_, ?_, ?_⟩
  · intro h
    subst h
    cases avg <;> cases ema <;> rfl
  · intro h
    subst h
    cases lp <;> cases ema <;> rfl
  · intro h
    subst h
    cases lp <;> cases avg <;> rfl
  · intro x h
    subst h
    cases avg <;> cases ema <;> rfl
  · intro x h
    subst h
    cases lp <;> cases ema <;> rfl
  · intro x h
    subst h
    cases lp <;> cases avg <;> rfl

/-- Closed instance of `C5_set_filters_partial_update` at the claim's
concrete input: updating only `avg_level := 20` against current bytes
`[1, 10, 10]` yields payload fields `1`, `20`, `10`. -/
theorem C5_set_filters_partial_update_witness :
    (set_filters 1 10 10 none (some 20) none).getD 0 0 = 1 ∧
    (set_filters 1 10 10 none (some 20) none).getD 1 0 = 20 ∧
    (set_filters 1 10 10 none (some 20) none).getD 2 0 = 10 := by
  have h := C5_set_filters_partial_update 1 10 10 none (some 20) none
  refine ⟨h.2.1 rfl, ?_, h.2.2.2.1 rfl⟩
  have h2 := h.2.2.2.2.2.1 20 rfl
  rw [h2]
  decide

/-- **C10.** For every integer `new_addr`, `set_i2c_address` writes
`new_addr % 128` to the address register, rebinds the client's own target
address to `new_addr % 128`, and returns that rebound value; a requested
address of 128 or more is silently truncated to 7 bits (the returned
address differs from the request) rather than rejected. -/
theorem C10_set_i2c_address_truncates :
    ∀ a : ℤ,
      (set_i2c_address a).payload = [a % 128] ∧
      (set_i2c_address a).boundAddr = a % 128 ∧
      (set_i2c_address a).ret = (set_i2c_address a).boundAddr ∧
      0 ≤ (set_i2c_address a).ret ∧ (set_i2c_address a).ret < 128 ∧
      (128 ≤ a → (set_i2c_address a).ret ≠ a) := by
  intro a
  refine ⟨rfl, rfl, rfl, ?_, ?_, ?_⟩
  · exact Int.emod_nonneg a (by norm_num)
  · exact Int.emod_lt_of_pos a (by norm_num)
  · intro ha
    have hlt : a % 128 < 128 := Int.emod_lt_of_pos a (by norm_num)
    intro heq
    simp only [set_i2c_address] at heq
    omega

/-- Closed instance of `C10_set_i2c_address_truncates`: a requested address
of 144 (≥ 128) is truncated — the rebound and returned address is 16. -/
theorem C10_set_i2c_address_truncates_witness :
    (set_i2c_address 144).ret ≠ 144 ∧ (set_i2c_address 144).ret = 16 := by
  refine ⟨(C10_set_i2c_address_truncates 144).2.2.2.2.2 (by norm_num), ?_⟩
  decide

/-! ## Logger: `mini_scale_logger.py` — file naming -/

/-- Model of the Python builtin `str.isalnum` on single characters, used by
`sanitize_tag`.  It is exact on the ASCII range, where it coincides with
`[A-Za-z0-9]`.  Python additionally returns `True` for the many non-ASCII
Unicode alphanumerics; of those, this table records the one needed below,
the letter e-acute (U+00E9), for which Python returns `True`. -/
def pyIsAlnum (c : Char) : Bool :=
  c.isAlphanum || c == 'é'

/-- `sanitize_tag` (src/mini_scale_logger.py:75-76): keep each character
that satisfies `ch.isalnum() or ch in "-_"`, replace every other character
by an underscore. -/
def sanitize_tag (tag : List Char) : List Char :=
  tag.map fun ch => if pyIsAlnum ch || ch == '-' || ch == '_' then ch else '_'

/-- Base file name computed by `today_path`
(src/mini_scale_logger.py:78-82): `weight_data_` then the sanitized tag
followed by an underscore when the sanitized tag is nonempty, then the day
string, then `.csv`.  The day string (from `datetime.now`) is passed in. -/
def today_base (day : List Char) (name : List Char) : List Char :=
  let tag := sanitize_tag name
  "weight_data_".toList ++
    (if tag.isEmpty then [] else tag ++ ['_']) ++ day ++ ".csv".toList

/-- Sanitizer written from the words of the claim, for comparison with
`sanitize_tag`: every character outside `[A-Za-z0-9_-]` is replaced by an
underscore (`Char.isAlphanum` is exactly ASCII `[A-Za-z0-9]`). -/
def sanitize_claim (tag : List Char) : List Char :=
  tag.map fun ch => if ch.isAlphanum || ch == '-' || ch == '_' then ch else '_'

/-- **C7, counterexample.** The character e-acute lies outside
`[A-Za-z0-9_-]`, so the claim requires it to be replaced by an underscore;
the code keeps it (Python `isalnum` is Unicode-aware), and the computed
file name for tag `é` and day `2026-10-12` therefore still contains it. -/
theorem C7_counterexample_unicode_tag :
    (('é').isAlphanum || ('é') == '-' || ('é') == '_') = false ∧
    sanitize_claim ['é'] = ['_'] ∧
    sanitize_tag ['é'] = ['é'] ∧
    today_base ("2026-10-12".toList) ['é'] =
      "weight_data_é_2026-10-12.csv".toList ∧
    today_base ("2026-10-12".toList) ['é'] ≠
      "weight_data___2026-10-12.csv".toList := by
  refine ⟨rfl, rfl, rfl, rfl, ?_⟩
  decide

/-- **C7, amended.** For every name tag, the computed log file name is
`weight_data_` + sanitized tag + `_` (the tag part omitted exactly when the
tag is empty) + day + `.csv`, where each character that is neither
alphanumeric in the Python Unicode sense nor `-` nor `_` is replaced by an
underscore; on ASCII characters that per-character rule coincides with
keeping exactly `[A-Za-z0-9_-]`. -/
theorem C7_amended_file_naming :
    (∀ day name : List Char,
      today_base day name =
        "weight_data_".toList ++
          (if (sanitize_tag name).isEmpty then [] else sanitize_tag name ++ ['_']) ++
          day ++ ".csv".toList) ∧
    (∀ name : List Char, (sanitize_tag name).isEmpty = true ↔ name = []) ∧
    (∀ name : List Char, ∀ i : ℕ, i < name.length →
      (sanitize_tag name).getD i '_' =
        (if pyIsAlnum (name.getD i '_') || name.getD i '_' == '-' ||
            name.getD i '_' == '_'
         then name.getD i '_' else '_')) ∧
    (∀ c : Char, c.toNat < 128 → pyIsAlnum c = c.isAlphanum) := by
  refine ⟨fun day name => rfl, fun name => ?_, fun name i hi => ?_, fun c hc => ?_⟩
  · simp [sanitize_tag]
  · have hi2 : i < (sanitize_tag name).length := by
      simpa [sanitize_tag] using hi
    rw [List.getD_eq_getElem _ _ hi2, List.getD_eq_getElem _ _ hi]
    simp [sanitize_tag]
  · have hne : (c == 'é') = false := by
      refine beq_eq_false_iff_ne.mpr fun h => ?_
      subst h
      exact absurd hc (by decide)
    simp [pyIsAlnum, hne]

/-- Closed instance of `C7_amended_file_naming` at tag `scale A!` and day
`2026-10-12`: the space and the exclamation mark are replaced, and the
per-character rule coincides with ASCII alphanumerics there. -/
theorem C7_amended_file_naming_witness :
    today_base ("2026-10-12".toList) ("scale A!".toList) =
      "weight_data_".toList ++
        (if (sanitize_tag ("scale A!".toList)).isEmpty then []
         else sanitize_tag ("scale A!".toList) ++ ['_']) ++
        "2026-10-12".toList ++ ".csv".toList ∧
    (sanitize_tag ("scale A!".toList)).getD 5 '_' = '_' ∧
    pyIsAlnum 'a' = ('a').isAlphanum := by
  refine ⟨C7_amended_file_naming.1 _ _, ?_, C7_amended_file_naming.2.2.2 'a' (by decide)⟩
  have h := C7_amended_file_naming.2.2.1 ("scale A!".toList) 5 (by decide)
  rw [h]
  decide

/-! ## Logger: CSV header idempotency -/

/-- The expected header string
`Time,Weight_g,Weight_x100_g,RawADC` (src/mini_scale_logger.py:90,93). -/
def csv_header : List Char := "Time,Weight_g,Weight_x100_g,RawADC".toList

/-- The first line of the file content, as read by `fp.readline()`
(src/mini_scale_logger.py:89); the trailing newline is immaterial to the
containment test below, so it is not kept. -/
def firstLine (content : List Char) : List Char :=
  content.takeWhile (· != '\n')

/-- The Python substring test `needle in hay`, on character lists: true
exactly when some suffix of `hay` starts with `needle`. -/
def containsStr (needle : List Char) : List Char → Bool
  | [] => needle.isEmpty
  | c :: rest => needle.isPrefixOf (c :: rest) || containsStr needle rest

/-- The `needs` flag of `ensure_header` (src/mini_scale_logger.py:84-91):
true when the file is empty (`fp.tell() == 0` after seeking to the end), or
otherwise when the header string is not contained in the first line
(`"Time,Weight_g,Weight_x100_g,RawADC" not in first`). -/
def needs_header (content : List Char) : Bool :=
  content.isEmpty || !(containsStr csv_header (firstLine content))

/-- `ensure_header` (src/mini_scale_logger.py:84-94): when the `needs` flag
is set, append the header row (the csv writer terminates it with CR LF)
at the end of the file; otherwise leave the content unchanged. -/
def ensure_header (content : List Char) : List Char :=
  if needs_header content then content ++ csv_header ++ ['\r', '\n']
  else content

/-- **C4, counterexample.** A nonempty file whose first line contains the
header string without starting with it: by the claim the header should be
written (the first line does not match the expected header prefix), but the
code writes nothing because it tests containment, not prefix. -/
theorem C4_counterexample_contained_header :
    ('x' :: csv_header).isEmpty = false ∧
    csv_header.isPrefixOf (firstLine ('x' :: csv_header)) = false ∧
    ensure_header ('x' :: csv_header) = 'x' :: csv_header := by
  refine ⟨rfl, by decide, by decide⟩

/-- **C4, amended.** Opening the sink writes the header line exactly once
when the file is empty or its first line does not contain the expected
header string, and writes no header otherwise: an empty file receives
exactly one header line before any data row, a file already starting with
the exact header line is unchanged, and in general a nonempty file whose
first line contains the header is unchanged while a file whose first line
does not contain it receives the header line exactly once. -/
theorem C4_amended_header_idempotent :
    ensure_header [] = csv_header ++ ['\r', '\n'] ∧
    (∀ rest : List Char,
      ensure_header (csv_header ++ '\n' :: rest) = csv_header ++ '\n' :: rest) ∧
    (∀ content : List Char, content ≠ [] →
      containsStr csv_header (firstLine content) = true →
      ensure_header content = content) ∧
    (∀ content : List Char,
      containsStr csv_header (firstLine content) = false →
      ensure_header content = content ++ csv_header ++ ['\r', '\n']) := by
  refine ⟨by decide, fun rest => ?_, fun content hne hin => ?_, fun content hin => ?_⟩
  · have hfl : firstLine (csv_header ++ '\n' :: rest) = csv_header := by
      have : ∀ l₁ : List Char, (∀ c ∈ l₁, (c != '\n') = true) →
          (l₁ ++ '\n' :: rest).takeWhile (· != '\n') = l₁ := by
        intro l₁ h
        induction l₁ with
        | nil => simp [List.takeWhile]
        | cons a l ihl =>
          have ha := h a (List.mem_cons_self a l)
          simp only [List.cons_append, List.takeWhile_cons, ha, if_true]
          rw [ihl fun c hc => h c (List.mem_cons_of_mem a hc)]
      exact this csv_header (by decide)
    have hinf : containsStr csv_header csv_header = true := by decide
    have hne : (csv_header ++ '\n' :: rest).isEmpty = false := by
      simp [csv_header]
    simp [ensure_header, needs_header, hfl, hinf, hne]
  · have hne2 : content.isEmpty = false := by
      cases content with
      | nil => exact absurd rfl hne
      | cons a l => rfl
    simp [ensure_header, needs_header, hne2, hin]
  · cases content with
    | nil => simp_all [ensure_header, needs_header]
    | cons a l => simp [ensure_header, needs_header, hin]

/-- Closed instance of `C4_amended_header_idempotent`: a file already
holding the header and one data row is unchanged, and a file holding
unrelated text receives the header exactly once at its end. -/
theorem C4_amended_header_idempotent_witness :
    ensure_header (csv_header ++ '\n' :: "1,2,3\n".toList) =
      csv_header ++ '\n' :: "1,2,3\n".toList ∧
    ensure_header ("abc\n".toList) =
      "abc\n".toList ++ csv_header ++ ['\r', '\n'] := by
  constructor
  · exact C4_amended_header_idempotent.2.2.1 _ (by decide) (by decide)
  · exact C4_amended_header_idempotent.2.2.2 _ (by decide)

/-! ## Logger: sampling loop error handling -/

/-- Outcome of the three bus reads attempted in one tick
(src/mini_scale_logger.py:197-202): the float-weight read, the scaled-weight
read, the raw-ADC read; `none` marks a raised exception. -/
structure TickRead where
  wf : Option ℚ
  wi : Option ℚ
  adc : Option ℤ
  deriving DecidableEq

/-- One CSV data row (src/mini_scale_logger.py:209); `none` in a weight
field embeds the float NaN sentinel. -/
structure Row where
  wf : Option ℚ
  wi : Option ℚ
  adc : ℤ
  deriving DecidableEq

/-- Body of one sampling tick (src/mini_scale_logger.py:196-210): the three
reads run inside a single `try`; when all succeed the sign multiplier is
applied to both weights, and when any of them raises, all three values
degrade to the sentinels NaN, NaN, -1.  A row results either way. -/
def sampleTick (sign : ℚ) (t : TickRead) : Row :=
  match t.wf, t.wi, t.adc with
  | some f, some i, some a => ⟨some (f * sign), some (i * sign), a⟩
  | _, _, _ => ⟨none, none, -1⟩

/-- The rows written by the sampling loop over a finite run of ticks:
one row per tick, in order (the `writer.writerow` of
src/mini_scale_logger.py:209 sits outside the `try`). -/
def runLoop (sign : ℚ) : List TickRead → List Row
  | [] => []
  | t :: rest => sampleTick sign t :: runLoop sign rest

/-- **C2.** Every tick of the sampling loop yields a row, so a failed read
never terminates the loop (as many rows as ticks), and for every tick in
which any of the three reads fails the written row carries the sentinels
NaN (embedded as `none`) for both weight fields and -1 for the raw count. -/
theorem C2_failed_read_sentinels :
    ∀ (sign : ℚ) (ticks : List TickRead),
      (runLoop sign ticks).length = ticks.length ∧
      ∀ i : ℕ, i < ticks.length →
        ((ticks.getD i ⟨none, none, none⟩).wf = none ∨
         (ticks.getD i ⟨none, none, none⟩).wi = none ∨
         (ticks.getD i ⟨none, none, none⟩).adc = none) →
        (runLoop sign ticks).getD i ⟨none, none, -1⟩ = ⟨none, none, -1⟩ := by
  intro sign ticks
  induction ticks with
  | nil => exact ⟨rfl, fun i hi => absurd hi (by simp)⟩
  | cons t rest ih =>
    refine ⟨by simpa [runLoop] using ih.1, ?_⟩
    intro i hi hfail
    cases i with
    | zero =>
      obtain ⟨wf, wi, adc⟩ := t
      simp only [List.getD_cons_zero] at hfail
      cases wf <;> cases wi <;> cases adc <;>
        simp_all [runLoop, sampleTick]
    | succ n =>
      have hn : n < rest.length := by
        simpa using hi
      have := ih.2 n hn (by simpa using hfail)
      simpa [runLoop] using this

/-- Closed instance of `C2_failed_read_sentinels`: a single tick whose
raw-ADC read fails (the weight reads having succeeded) still yields a row,
and that row is the sentinel row. -/
theorem C2_failed_read_sentinels_witness :
    (runLoop 1 [⟨some 1, some 2, none⟩]).length = 1 ∧
    (runLoop 1 [⟨some 1, some 2, none⟩]).getD 0 ⟨none, none, -1⟩ =
      ⟨none, none, -1⟩ := by
  refine ⟨(C2_failed_read_sentinels 1 _).1, ?_⟩
  exact (C2_failed_read_sentinels 1 [⟨some 1, some 2, none⟩]).2 0 (by decide)
    (Or.inr (Or.inr rfl))

/-! ## Logger: button-triggered tare

The button handling of `main` (src/mini_scale_logger.py:215-244) is a state
machine over the stream of `get_button_pressed` results produced by the two
poll sites: the edge-detection poll (line 221) and the polls inside the
wait-for-release loop (line 236).  A poll result is `some b` for a
successful read returning `b` and `none` for a raised exception.  The model
assumes the `tare()` write itself succeeds; claims about read failures are
expressed through the `none` poll results. -/

/-- Control state of the button handler: `run prev` is the edge-detection
block about to poll with `prev_pressed = prev`; `waitRelease` is the
wait-for-release loop of src/mini_scale_logger.py:234-240 (entered after a
tare, `BTN_WAIT_RELEASE` being the constant `True`). -/
inductive BtnState where
  | run (prev : Bool)
  | waitRelease
  deriving DecidableEq, Repr

/-- One consumed poll result: next state and number of `tare()` calls made.
In state `run prev`: a raised read makes `pressed = False` (line 222-223);
on a rising edge (`pressed and not prev_pressed`, line 226) `tare()` fires
and control enters the wait-for-release loop, `prev_pressed` having been set
to the `True` just read (line 244).  In state `waitRelease`: a read of
pressed keeps waiting, and a read of not-pressed or a raised read breaks
out (lines 236-239). -/
def btnStep : BtnState → Option Bool → BtnState × ℕ
  | .run prev, r =>
    let pressed := r.getD false
    if pressed && !prev then (.waitRelease, 1)
    else (.run pressed, 0)
  | .waitRelease, r =>
    match r with
    | some true => (.waitRelease, 0)
    | _ => (.run true, 0)

/-- Total number of `tare()` calls made while consuming a finite stream of
poll results from a given control state. -/
def tareCalls (s : BtnState) : List (Option Bool) → ℕ
  | [] => 0
  | r :: rest => (btnStep s r).2 + tareCalls (btnStep s r).1 rest

/-- Number of rising edges in a sequence of successful poll readings, in the
sense of the claim: a poll reading pressed whose predecessor (initially the
state `prev`) read not-pressed. -/
def risingEdges (prev : Bool) : List Bool → ℕ
  | [] => 0
  | b :: rest => (if b && !prev then 1 else 0) + risingEdges b rest

/-- Starting disarmed suppresses at most the leading edge. -/
theorem risingEdges_true_le :
    ∀ l : List Bool, risingEdges true l ≤ risingEdges false l := by
  intro l
  cases l with
  | nil => exact le_refl 0
  | cons b rest =>
    cases b <;> simp [risingEdges]

/-- Tare calls never exceed rising edges, from the edge-detection state with
any `prev_pressed`, and from inside the wait-for-release loop. -/
theorem tareCalls_le_risingEdges :
    ∀ l : List Bool,
      (∀ prev, tareCalls (.run prev) (l.map some) ≤ risingEdges prev l) ∧
      tareCalls .waitRelease (l.map some) ≤ risingEdges true l := by
  intro l
  induction l with
  | nil => exact ⟨fun prev => le_refl 0, le_refl 0⟩
  | cons b rest ih =>
    constructor
    · intro prev
      cases b with
      | false =>
        simpa [tareCalls, btnStep, risingEdges] using ih.1 false
      | true =>
        cases prev with
        | false =>
          simpa [tareCalls, btnStep, risingEdges] using ih.2
        | true =>
          simpa [tareCalls, btnStep, risingEdges] using ih.1 true
    · cases b with
      | true =>
        simpa [tareCalls, btnStep, risingEdges] using ih.2
      | false =>
        have h1 := ih.1 true
        have h2 := risingEdges_true_le rest
        simpa [tareCalls, btnStep, risingEdges] using h1.trans h2

/-- While the wait-for-release loop keeps reading pressed, no tare fires. -/
theorem tareCalls_waitRelease_held :
    ∀ n : ℕ, tareCalls .waitRelease (List.replicate n (some true)) = 0 := by
  intro n
  induction n with
  | zero => rfl
  | succ k ih =>
    simpa [List.replicate_succ, tareCalls, btnStep] using ih

/-- **C1, counterexample.** The successful poll sequence
pressed, released, pressed has two rising edges but produces only one
`tare()` call: the released poll and the second pressed poll are consumed
by the wait-for-release loop and the re-armed edge detector respectively,
so tare is not called exactly once per rising edge. -/
theorem C1_counterexample_edge_absorbed :
    tareCalls (.run false) ([true, false, true].map some) = 1 ∧
    risingEdges false [true, false, true] = 2 := by
  exact ⟨rfl, rfl⟩

/-- **C1, amended.** For every sequence of successful button polls, `tare()`
is called at most once per rising edge (never without one); the press
sequence pressed, pressed, pressed, released produces exactly one tare
call; a continuously held press never re-fires; and a new press after a
release observed by the edge-detection poll (a released poll beyond the one
consumed by the wait-for-release loop) re-arms and triggers one further
tare. -/
theorem C1_amended_debounce :
    (∀ polls : List Bool,
      tareCalls (.run false) (polls.map some) ≤ risingEdges false polls) ∧
    tareCalls (.run false) ([true, true, true, false].map some) = 1 ∧
    (∀ n : ℕ, tareCalls (.run false) (List.replicate (n + 1) (some true)) = 1) ∧
    tareCalls (.run false) ([true, true, true, false, false, true].map some) = 2 := by
  refine ⟨fun polls => (tareCalls_le_risingEdges polls).1 false, rfl, fun n => ?_, rfl⟩
  simpa [List.replicate_succ, tareCalls, btnStep] using tareCalls_waitRelease_held n

/-- **C9.** A raised button read is recorded as not-pressed (both as the
current reading and, through `prev_pressed = pressed`, as the previous
state), and consequently the poll sequence pressed, failed, failed, pressed
— realizable with the button physically held throughout — issues two
`tare()` calls for the same physical press: the first failure breaks the
wait-for-release loop, the second resets `prev_pressed` to not-pressed, and
the following successful pressed poll counts as a new rising edge. -/
theorem C9_failed_poll_double_tare :
    (∀ prev : Bool, btnStep (.run prev) none = (.run false, 0)) ∧
    tareCalls (.run false) [some true, none, none, some true] = 2 := by
  constructor
  · intro prev
    cases prev <;> rfl
  · rfl

/-! ## Logger: loop cadence of button polls -/

/-- Observable events of one iteration of the main while-loop
(src/mini_scale_logger.py:184-247). -/
inductive LoopEv where
  | row
  | poll
  deriving DecidableEq, Repr

/-- One iteration of the main loop in a run where every button poll reads
not-pressed (so the tare branch never executes): the iteration always
writes exactly one CSV row (line 209), and then performs at most one button
poll — only when the 50 ms gate `now - last_sample_time >= BTN_SAMPLE_SECS`
(line 218) passes, the wall-clock outcome of which is the environment-
supplied `gate`.  The iteration ends in the sleep of line 247. -/
def quietIter (gate : Bool) : List LoopEv :=
  LoopEv.row :: if gate then [LoopEv.poll] else []

/-- Event trace of a finite run of main-loop iterations with the button
never pressed. -/
def quietRun : List Bool → List LoopEv
  | [] => []
  | g :: rest => quietIter g ++ quietRun rest

/-- **C8.** In every run of the main loop with the button unpressed, the
number of button polls never exceeds the number of sample rows — at most
one poll per sampling tick — and in the run where the 50 ms gate is open on
three consecutive iterations the trace is row, poll, row, poll, row, poll:
exactly one poll between consecutive rows, i.e. the button is polled at the
sampling cadence, not at a strictly faster one. -/
theorem C8_poll_cadence_not_faster :
    (∀ gates : List Bool,
      (quietRun gates).count LoopEv.poll ≤ (quietRun gates).count LoopEv.row) ∧
    quietRun [true, true, true] =
      [LoopEv.row, LoopEv.poll, LoopEv.row, LoopEv.poll,
       LoopEv.row, LoopEv.poll] := by
  refine ⟨fun gates => ?_, rfl⟩
  induction gates with
  | nil => exact le_refl 0
  | cons g rest ih =>
    cases g <;>
      simp [quietRun, quietIter, List.count_cons, List.count_append] <;>
      omega

end MiniScales
